import Mathlib

/-!
Verification of the module source and dependency resolution engine of this
repository (aidegen).  The engine lives in aidegen/lib/source_locator.py,
which is not part of the tree; only its unit tests
(aidegen/lib/source_locator_unittest.py) and test constants are present.
The definitions below are therefore modelled from the specification
(spec.md sections 3 and 4.1-4.4) and, where the specification is silent or
self-contradictory, from the behaviour pinned by the in-tree unit tests.
Paths are plain strings over the separator "/", as in the Python code;
the string primitives below work on the underlying character lists so
that every definition reduces inside the kernel, and the result sets of a
module are modelled as duplicate-free lists grown by addUnique.
-/

namespace SourceLocator

/-- Splits a list of characters at each occurrence of the separator
character; the accumulator holds the current component reversed. -/
def splitCharsAux (sep : Char) : List Char → List Char → List String
  | [], acc => [String.mk acc.reverse]
  | c :: cs, acc =>
    if c = sep then String.mk acc.reverse :: splitCharsAux sep cs []
    else splitCharsAux sep cs (c :: acc)

/-- Splits a path string into its "/"-separated components, as the Python
code does with split(os.sep) and friends. -/
def splitPath (p : String) : List String := splitCharsAux '/' p.data []

/-- Tests whether the string s ends with the string sfx, as the Python
str.endswith does. -/
def strEndsWith (s sfx : String) : Bool := List.isSuffixOf sfx.data s.data

/-- Tests whether the string s starts with the string pfx, as the Python
str.startswith does. -/
def strStartsWith (s pfx : String) : Bool := List.isPrefixOf pfx.data s.data

/-- Removes the last n characters of a string. -/
def strDropRight (s : String) (n : Nat) : String :=
  String.mk (s.data.take (s.data.length - n))

/-- Joins path components with the separator "/", as os.sep.join does for
relative components. -/
def slashJoin : List String → String
  | [] => ""
  | [a] => a
  | a :: b :: l => a ++ "/" ++ slashJoin (b :: l)

/-- Joins name components with ".", as ".".join does; used to compare a
suffix of the directory components of a path with a dotted package name. -/
def dotJoin : List String → String
  | [] => ""
  | [a] => a
  | a :: b :: l => a ++ "." ++ dotJoin (b :: l)

/-- os.path.join for two non-absolute components, as used by the resolver
to join a module root path with a declared jar name. -/
def pathJoin (root name : String) : String := root ++ "/" ++ name

/-- Searches k = n-1, n-2, ..., 0 for the largest k such that the suffix
of dirs starting at index k, joined with dots, spells the package name;
this is the match nearest the leaf among the matches directly adjacent to
the terminal file name. -/
def largestMatchAux (dirs : List String) (pkg : String) : Nat → Option Nat
  | 0 => none
  | Nat.succ k =>
    if dotJoin (List.drop k dirs) = pkg then some k
    else largestMatchAux dirs pkg k

/-- Modelled from the spec: ModuleData._parse_source_path of
aidegen/lib/source_locator.py (file absent from the tree).  Spec 4.1:
the dotted package is matched against the components of the file path
directly adjacent to the terminal filename, the match nearest the leaf
wins, and the source root is everything before that match; a directory
literally named after the package text (for example a directory named
"c.d") also matches, as do mixed forms, which is exactly a suffix of the
directory components whose dot-join equals the package name.  When no
suffix matches, the result falls back to the directory of the file
itself (spec section 8 and the in-tree test test_parse_source_path). -/
def _parse_source_path (java_file package_name : String) : String :=
  match largestMatchAux ((splitPath java_file).dropLast) package_name
      ((splitPath java_file).dropLast).length with
  | some k => slashJoin (List.take k ((splitPath java_file).dropLast))
  | none => slashJoin ((splitPath java_file).dropLast)

/-- The filesystem facts the resolver reads: pathExists models
os.path.exists relative to the checked-out root, and packageOf models
ModuleData._get_package_name, the package statement scraped from a java
file (none when the file has no parsable package statement). -/
structure FileSys where
  pathExists : String → Bool
  packageOf : String → Option String

/-- The build-graph metadata of one module (spec section 3), the read-only
input of the resolver.  classes holds the "class" tags, classes_jar the
declared classes-jar artifacts of the distinguishing-classifier case of
spec 4.4, and module_depth the "depth" value assigned by the graph
provider. -/
structure BuildModule where
  path : List String
  srcs : List String
  srcjars : List String
  jars : List String
  installed : List String
  jarjar_rules : List String
  classes : List String
  classes_jar : List String
  module_depth : Nat

/-- The first declared root path of the module, against which declared
jar names are joined. -/
def BuildModule.rootPath (m : BuildModule) : String := m.path.headD ""

/-- The per-module result sets of ModuleData (spec section 3), rebuilt on
every run; sets are modelled as duplicate-free lists. -/
structure ModuleData where
  src_dirs : List String
  test_dirs : List String
  jar_files : List String
  missing_jars : List String
  r_java_paths : List String
  srcjar_paths : List String
  build_targets : List String
  deriving DecidableEq, Repr

/-- The empty result sets a ModuleData starts from. -/
def initData : ModuleData := ⟨[], [], [], [], [], [], []⟩

/-- Set insertion on the list model of a result set. -/
def addUnique (l : List String) (x : String) : List String :=
  if x ∈ l then l else l ++ [x]

/-- Modelled from the spec: ModuleData._get_source_folder combines the
package scraper with _parse_source_path (spec 4.1): none when the file
does not exist or carries no parsable package statement. -/
def _get_source_folder (fs : FileSys) (java_file : String) : Option String :=
  if fs.pathExists java_file then
    match fs.packageOf java_file with
    | some pkg => some (_parse_source_path java_file pkg)
    | none => none
  else none

/-- The built-in list of directories never added as source or test roots;
its content is pinned by the in-tree test test_add_to_source_or_test_dirs. -/
def ignoreDirs : List String := ["libcore/ojluni/src/lambda/java"]

/-- A directory falls under the test-path convention when it contains a
"tests" path segment (spec 4.3). -/
def isTestDir (d : String) : Bool := (splitPath d).contains "tests"

/-- Modelled from the spec: ModuleData._add_to_source_or_test_dirs.
Spec 4.3 classifies a resolved source root into test_dirs when it falls
under the test-path convention and into src_dirs otherwise; directories
on the built-in ignore list are dropped silently (in-tree test
test_add_to_source_or_test_dirs). -/
def _add_to_source_or_test_dirs (st : ModuleData) (d : String) : ModuleData :=
  if d ∈ ignoreDirs then st
  else if isTestDir d then { st with test_dirs := addUnique st.test_dirs d }
  else { st with src_dirs := addUnique st.src_dirs d }

/-- The body of the loop of ModuleData._collect_srcs_paths: a .java entry
contributes its inferred source root, classified as source or test. -/
def srcStep (fs : FileSys) (st : ModuleData) (src : String) : ModuleData :=
  if strEndsWith src ".java" then
    match _get_source_folder fs src with
    | some d => _add_to_source_or_test_dirs st d
    | none => st
  else st

/-- Modelled from the spec: ModuleData._collect_srcs_paths (spec 4.3):
for every .java entry of srcs, the source root is inferred with
_get_source_folder and classified. -/
def _collect_srcs_paths (fs : FileSys) (m : BuildModule) (st : ModuleData) :
    ModuleData :=
  m.srcs.foldl (srcStep fs) st

/-- Modelled from the spec: ModuleData._get_r_dir (spec 4.2), the
generated-resource directory derivation, rules in order: a path ending in
"aapt2.srcjar" has its ".srcjar" suffix stripped; a path ending in
"android/R.srcjar" has that trailing segment rewritten to "aapt2/R"; any
other suffix is unrecognized and yields none. -/
def _get_r_dir (srcjar : String) : Option String :=
  if strEndsWith srcjar "aapt2.srcjar" then
    some (strDropRight srcjar 7)
  else if strEndsWith srcjar "android/R.srcjar" then
    some (strDropRight srcjar 16 ++ "aapt2/R")
  else none

/-- The body of the loop of ModuleData._collect_r_srcs_paths: a derived
resource directory that exists joins r_java_paths, a derived directory
that is absent sends the srcjar itself into build_targets, and an
unrecognized srcjar is skipped silently. -/
def rStep (fs : FileSys) (st : ModuleData) (sj : String) : ModuleData :=
  match _get_r_dir sj with
  | some d =>
    if fs.pathExists d then
      { st with r_java_paths := addUnique st.r_java_paths d }
    else
      { st with build_targets := addUnique st.build_targets sj }
  | none => st

/-- Modelled from the spec: ModuleData._collect_r_srcs_paths (spec 4.3):
entries are produced only for a module whose class tags contain "APPS";
each srcjar entry is then mapped through _get_r_dir by rStep.  The spec
phrase about the depth being within scope is contradicted by the in-tree
test test_collect_r_src_path (lines 148-157), where a module of metadata
depth 1 resolved at requested depth 0 still populates r_java_paths, and
no in-tree test exhibits any depth influence on this collector once the
missing APPS tag of the earlier fixtures is accounted for, so the gate
is the APPS class tag alone. -/
def _collect_r_srcs_paths (fs : FileSys) (m : BuildModule)
    (st : ModuleData) : ModuleData :=
  if "APPS" ∈ m.classes then
    m.srcjars.foldl (rStep fs) st
  else st

/-- Modelled from the spec: ModuleData._append_jar_file: a path joins
jar_files only when it names a .jar file that exists on disk (spec 4.3
step 1 and the in-tree test test_append_jar_file, which also skips paths
that are not jar files). -/
def _append_jar_file (fs : FileSys) (st : ModuleData) (jar : String) :
    ModuleData :=
  if strEndsWith jar ".jar" && fs.pathExists jar then
    { st with jar_files := addUnique st.jar_files jar }
  else st

/-- The body of the loop of ModuleData._set_jars_jarfile: one declared
jar name joined with the module root path. -/
def jarNameStep (fs : FileSys) (root : String) (st : ModuleData)
    (name : String) : ModuleData :=
  _append_jar_file fs st (pathJoin root name)

/-- Modelled from the spec: ModuleData._set_jars_jarfile: every declared
name of jars is joined with the module root path and appended when it
resolves on disk; per the in-tree test test_set_jars_jarfile an
unresolvable declared jar is skipped silently and missing_jars is left
unchanged (the spec sentence about recording it in missing_jars does not
match that test). -/
def _set_jars_jarfile (fs : FileSys) (m : BuildModule) (st : ModuleData) :
    ModuleData :=
  m.jars.foldl (jarNameStep fs m.rootPath) st

/-- Modelled from the spec: ModuleData._append_jar_from_installed
(spec 4.3 steps 2 and 3): .aar entries of installed are skipped, an
optional path-prefix filter restricts the candidates, and the first
remaining entry is appended as the representative jar. -/
def _append_jar_from_installed (fs : FileSys) (m : BuildModule)
    (pfx : Option String) (st : ModuleData) : ModuleData :=
  match (m.installed.filter
      (fun p => !strEndsWith p ".aar" &&
        (match pfx with
         | some q => strStartsWith p q
         | none => true))).head? with
  | some jar => _append_jar_file fs st jar
  | none => st

/-- True when the module declares jarjar rules (spec 4.4 step 1). -/
def _check_jarjar_rules_exist (m : BuildModule) : Bool :=
  !m.jarjar_rules.isEmpty

/-- Modelled from the spec: ModuleData.locate_sources_path under the
depth policy of spec 4.3: a module whose depth exceeds the requested
depth is resolved as jar only; otherwise the source and the
generated-resource collectors run and the depth-based jar collection is
skipped, except that per the in-tree test test_locate_sources_path a
module carrying jarjar rules additionally gets its installed jar
appended even when resolved as source. -/
def locate_sources_path (fs : FileSys) (m : BuildModule) (reqDepth : Nat)
    (st : ModuleData) : ModuleData :=
  if reqDepth < m.module_depth then
    _append_jar_from_installed fs m none st
  else if _check_jarjar_rules_exist m then
    _append_jar_from_installed fs m none
      (_collect_r_srcs_paths fs m (_collect_srcs_paths fs m st))
  else _collect_r_srcs_paths fs m (_collect_srcs_paths fs m st)

/-- Modelled from the spec: ModuleData._collect_srcjar_path derives the
jar-as-source pseudo entry "<path>!/" of spec 4.2; per the in-tree test
test_collect_srcjar_path only a path ending in ".srcjar" produces an
entry (the spec sentence saying the derivation always succeeds does not
match that test, which feeds it "R.java" and expects no entry). -/
def _collect_srcjar_path (st : ModuleData) (srcjar : String) : ModuleData :=
  if strEndsWith srcjar ".srcjar" then
    { st with srcjar_paths := addUnique st.srcjar_paths (srcjar ++ "!/") }
  else st

/-- Modelled from the spec: ModuleData._collect_all_srcjar_paths marks
every srcjar of the module as an attachable pseudo source root (in-tree
test test_collect_all_srcjar_path). -/
def _collect_all_srcjar_paths (m : BuildModule) (st : ModuleData) :
    ModuleData :=
  m.srcjars.foldl _collect_srcjar_path st

/-- Modelled from the spec: EclipseModuleData._collect_missing_jars
(spec 4.4): the unresolved jars are promoted into build_targets only when
the module is reached purely as a jar dependency; otherwise they stay in
missing_jars for reporting and build_targets is untouched. -/
def _collect_missing_jars (referenced_by_jar : Bool) (st : ModuleData) :
    ModuleData :=
  if referenced_by_jar then
    { st with build_targets := st.missing_jars.foldl addUnique st.build_targets }
  else st

/-- All declared jars of the module resolve on disk (spec 4.4 step 2). -/
def _check_jars_exist (fs : FileSys) (m : BuildModule) : Bool :=
  !m.jars.isEmpty &&
    m.jars.all (fun n => fs.pathExists (pathJoin m.rootPath n))

/-- The module carries the distinguishing classifier of spec 4.4 step 3,
modelled as declared classes-jar artifacts. -/
def _check_key (m : BuildModule) : Bool := !m.classes_jar.isEmpty

/-- Modelled from the spec: ModuleData._append_classes_jar, the
classes-jar naming convention of spec 4.4 step 3. -/
def _append_classes_jar (fs : FileSys) (m : BuildModule) (st : ModuleData) :
    ModuleData :=
  m.classes_jar.foldl (_append_jar_file fs) st

/-- Modelled from the spec: EclipseModuleData._locate_jar_path, the fixed
priority of spec 4.4: jarjar rules force the jar from installed outputs;
else resolvable declared jars win; else the classes-jar convention; else
the first resolvable installed entry (ordering confirmed by the in-tree
test test_locate_jar_path). -/
def _locate_jar_path (fs : FileSys) (m : BuildModule) (st : ModuleData) :
    ModuleData :=
  if _check_jarjar_rules_exist m then _append_jar_from_installed fs m none st
  else if _check_jars_exist fs m then _set_jars_jarfile fs m st
  else if _check_key m then _append_classes_jar fs m st
  else _append_jar_from_installed fs m none st

/-- Modelled from the spec: EclipseModuleData._locate_project_source_path
runs the source collector and the generated-resource collector (spec 4.4
and the in-tree test test_locate_project_source_path). -/
def _locate_project_source_path (fs : FileSys) (m : BuildModule)
    (st : ModuleData) : ModuleData :=
  _collect_r_srcs_paths fs m (_collect_srcs_paths fs m st)

/-- Modelled from the spec: the dispatch of
EclipseModuleData.locate_sources_path, recorded as the list of the steps
it runs.  Spec 4.4 gives the is_project branching between the
project-source collector and the jar locator; the in-tree unit test
EclipseModuleDataUnittests.test_locate_sources_path additionally asserts
that _collect_classes_jars and _collect_missing_jars are invoked when
is_project is true, so both closing steps appear on either branch. -/
def eclipseLocateSteps (is_project : Bool) : List String :=
  (if is_project then ["_locate_project_source_path"]
   else ["_locate_jar_path"]) ++
    ["_collect_classes_jars", "_collect_missing_jars"]

/-- A concrete filesystem for the no-match counterexample: exactly the
file a/b/c/d/e.java exists and declares package x.y. -/
def fsC3 : FileSys :=
  { pathExists := fun p => p == "a/b/c/d/e.java",
    packageOf := fun p => if p == "a/b/c/d/e.java" then some "x.y" else none }

/-- A concrete filesystem on which exactly out/test.jar exists. -/
def fsC2 : FileSys :=
  { pathExists := fun p => p == "out/test.jar", packageOf := fun _ => none }

/-- A depth-0 module carrying jarjar rules and one installed jar. -/
def modC2 : BuildModule :=
  { path := [], srcs := [], srcjars := [], jars := [],
    installed := ["out/test.jar"], jarjar_rules := ["jarjar-rules.txt"],
    classes := [], classes_jar := [], module_depth := 0 }

/-- The module modC2 without jarjar rules, at depth 2. -/
def modW2 : BuildModule := { modC2 with jarjar_rules := [], module_depth := 2 }

/-- The module modC2 without jarjar rules, at depth 3. -/
def modW2d : BuildModule := { modC2 with jarjar_rules := [], module_depth := 3 }

/-- A concrete filesystem on which exactly packages/apps/test/test.jar
exists, mirroring the fixture of test_set_jars_jarfile. -/
def fsC5 : FileSys :=
  { pathExists := fun p => p == "packages/apps/test/test.jar",
    packageOf := fun _ => none }

/-- A module declaring one resolvable and one unresolvable jar. -/
def modC5 : BuildModule :=
  { path := ["packages/apps/test"], srcs := [], srcjars := [],
    jars := ["test.jar", "missing.jar"], installed := [], jarjar_rules := [],
    classes := [], classes_jar := [], module_depth := 0 }

/-- A concrete filesystem on which nothing exists. -/
def fsC6 : FileSys :=
  { pathExists := fun _ => false, packageOf := fun _ => none }

/-- An APPS module at depth 0 with one recognizable srcjar. -/
def modC6 : BuildModule :=
  { path := [], srcs := [], srcjars := ["x/aapt2.srcjar"], jars := [],
    installed := [], jarjar_rules := [], classes := ["APPS"],
    classes_jar := [], module_depth := 0 }

/-- The module modC6 without the APPS class tag. -/
def modC6n : BuildModule := { modC6 with classes := [] }

/-- The APPS module modC6 at metadata depth 1, mirroring the fixture of
test_collect_r_src_path lines 148-157. -/
def modC6d : BuildModule := { modC6 with module_depth := 1 }

/-- A concrete filesystem on which exactly the derived resource
directory x/aapt2 exists. -/
def fsC6e : FileSys :=
  { pathExists := fun p => p == "x/aapt2", packageOf := fun _ => none }

/-- A result state holding one unresolved jar, as in the fixture of
test_collect_missing_jars. -/
def stW7 : ModuleData := { initData with missing_jars := ["a"] }

end SourceLocator

namespace SourceLocator

theorem dotJoin_cons (a : String) (l : List String) (h : l ≠ []) :
    dotJoin (a :: l) = a ++ "." ++ dotJoin l := by
  cases l with
  | nil => exact absurd rfl h
  | cons b t => rfl

theorem dotJoin_length_lt (l₁ l₂ : List String) (h₁ : l₁ ≠ []) (h₂ : l₂ ≠ []) :
    (dotJoin l₂).length < (dotJoin (l₁ ++ l₂)).length := by
  induction l₁ with
  | nil => exact absurd rfl h₁
  | cons a t ih =>
    cases t with
    | nil =>
      have h : ([a] ++ l₂) = a :: l₂ := by simp
      rw [h, dotJoin_cons a l₂ h₂, String.length_append, String.length_append]
      have hdot : ("." : String).length = 1 := rfl
      omega
    | cons b t2 =>
      have hne : (b :: t2) ++ l₂ ≠ [] := by simp
      have h : ((a :: b :: t2) ++ l₂) = a :: ((b :: t2) ++ l₂) := by simp
      rw [h, dotJoin_cons a _ hne, String.length_append, String.length_append]
      have hih := ih (by simp)
      have hdot : ("." : String).length = 1 := rfl
      omega

theorem largestMatchAux_eq_some (dirs : List String) (pkg : String) (k0 : Nat) :
    ∀ n, k0 < n → dotJoin (dirs.drop k0) = pkg →
      (∀ k, k0 < k → k < n → dotJoin (dirs.drop k) ≠ pkg) →
      largestMatchAux dirs pkg n = some k0 := by
  intro n
  induction n with
  | zero => intro h; omega
  | succ m ih =>
    intro hlt htrue hfalse
    simp only [largestMatchAux]
    by_cases hm : m = k0
    · subst hm; rw [if_pos htrue]
    · have hk0m : k0 < m := by omega
      rw [if_neg (hfalse m hk0m (Nat.lt_succ_self m))]
      exact ih hk0m htrue (fun k h1 h2 => hfalse k h1 (by omega))

theorem largestMatchAux_eq_none (dirs : List String) (pkg : String) :
    ∀ n, (∀ k, k < n → dotJoin (dirs.drop k) ≠ pkg) →
      largestMatchAux dirs pkg n = none := by
  intro n
  induction n with
  | zero => intro _; rfl
  | succ m ih =>
    intro h
    simp only [largestMatchAux]
    rw [if_neg (h m (Nat.lt_succ_self m))]
    exact ih (fun k hk => h k (by omega))

/-- C1: when the slashed path segment of the dotted package name stands
directly adjacent to the terminal filename of the java file, the inferred
source root is exactly the prefix of the path before that occurrence —
the match nearest the leaf wins over a literal directory named after the
package text earlier in the path, as the bundled concrete cases
a/b/c/d/e.java, a/b/c.d/e.java and a/b/c.d/e/c/d/f.java with package c.d
show. -/
theorem parse_source_path_rightmost (java_file package_name fname : String)
    (pre pkgComps : List String)
    (hsplit : splitPath java_file = pre ++ pkgComps ++ [fname])
    (hpkg : package_name = dotJoin pkgComps)
    (hne : pkgComps ≠ []) :
    _parse_source_path java_file package_name = slashJoin pre ∧
    _parse_source_path "a/b/c/d/e.java" "c.d" = "a/b" ∧
    _parse_source_path "a/b/c.d/e.java" "c.d" = "a/b" ∧
    _parse_source_path "a/b/c.d/e/c/d/f.java" "c.d" = "a/b/c.d/e" := by
  refine ⟨?_, by decide, by decide, by decide⟩
  unfold _parse_source_path
  have hdirs : (splitPath java_file).dropLast = pre ++ pkgComps := by
    rw [hsplit, List.dropLast_concat]
  rw [hdirs]
  have hlen : (pre ++ pkgComps).length = pre.length + pkgComps.length :=
    List.length_append _ _
  have hpos : 0 < pkgComps.length := List.length_pos.mpr hne
  have hk0 : pre.length < (pre ++ pkgComps).length := by
    rw [hlen]; omega
  have htrue : dotJoin ((pre ++ pkgComps).drop pre.length) = package_name := by
    rw [List.drop_left, hpkg]
  have hfalse : ∀ k, pre.length < k → k < (pre ++ pkgComps).length →
      dotJoin ((pre ++ pkgComps).drop k) ≠ package_name := by
    intro k hk1 hk2
    rw [hlen] at hk2
    have hj : k = pre.length + (k - pre.length) := by omega
    rw [hj, List.drop_append]
    have hj1 : 1 ≤ k - pre.length := by omega
    have hj2 : k - pre.length < pkgComps.length := by omega
    have hsp : pkgComps.take (k - pre.length) ++ pkgComps.drop (k - pre.length)
        = pkgComps := List.take_append_drop _ pkgComps
    have htne : pkgComps.take (k - pre.length) ≠ [] := by
      intro hcon
      have hc : (pkgComps.take (k - pre.length)).length = 0 := by rw [hcon]; rfl
      rw [List.length_take] at hc
      omega
    have hdne : pkgComps.drop (k - pre.length) ≠ [] := by
      intro hcon
      have hc : (pkgComps.drop (k - pre.length)).length = 0 := by rw [hcon]; rfl
      rw [List.length_drop] at hc
      omega
    have hlt := dotJoin_length_lt _ _ htne hdne
    rw [hsp] at hlt
    intro heq
    rw [hpkg] at heq
    rw [heq] at hlt
    exact lt_irrefl _ hlt
  rw [largestMatchAux_eq_some (pre ++ pkgComps) package_name pre.length
    (pre ++ pkgComps).length hk0 htrue hfalse]
  show slashJoin (List.take pre.length (pre ++ pkgComps)) = slashJoin pre
  rw [List.take_left]

/-- Witness for C1 at a concrete input: file p/q/r/s.java with package
q.r has source root p. -/
theorem parse_source_path_rightmost_witness :
    _parse_source_path "p/q/r/s.java" "q.r" = slashJoin ["p"] :=
  (parse_source_path_rightmost "p/q/r/s.java" "q.r" "s.java" ["p"] ["q", "r"]
    (by decide) (by decide) (by decide)).1

/-- C3 counterexample: for file a/b/c/d/e.java and package x.y, whose
path segment occurs nowhere in the path, the source-root inference does
not return none: _parse_source_path returns the full directory a/b/c/d,
and _get_source_folder on a filesystem holding that file with that
package returns some a/b/c/d. -/
theorem parse_source_path_no_match_counterexample :
    _get_source_folder fsC3 "a/b/c/d/e.java" ≠ none ∧
    _get_source_folder fsC3 "a/b/c/d/e.java" = some "a/b/c/d" ∧
    _parse_source_path "a/b/c/d/e.java" "x.y" = "a/b/c/d" := by decide

/-- C3 amended: when no suffix of the directory components of the file
spells the package name (neither in slashed nor in literal dotted form),
_parse_source_path falls back to the full directory of the file itself
rather than returning none. -/
theorem parse_source_path_no_match_falls_back (java_file package_name : String)
    (hno : ∀ k, k < ((splitPath java_file).dropLast).length →
      dotJoin (((splitPath java_file).dropLast).drop k) ≠ package_name) :
    _parse_source_path java_file package_name =
      slashJoin ((splitPath java_file).dropLast) := by
  unfold _parse_source_path
  rw [largestMatchAux_eq_none _ _ _ hno]

/-- Witness for the amended C3 at the concrete no-match input of the
in-tree test. -/
theorem parse_source_path_no_match_falls_back_witness :
    _parse_source_path "a/b/c/d/e.java" "x.y" =
      slashJoin ((splitPath "a/b/c/d/e.java").dropLast) :=
  parse_source_path_no_match_falls_back "a/b/c/d/e.java" "x.y" (by decide)

theorem foldl_preserves {α : Type} {f : ModuleData → α → ModuleData}
    {P : ModuleData → Prop} (hf : ∀ st a, P st → P (f st a)) :
    ∀ (l : List α) (st : ModuleData), P st → P (l.foldl f st) := by
  intro l
  induction l with
  | nil => intro st h; exact h
  | cons a t ih => intro st h; exact ih _ (hf st a h)

theorem mem_addUnique (l : List String) (x y : String) :
    y ∈ addUnique l x ↔ y ∈ l ∨ y = x := by
  unfold addUnique
  split
  · constructor
    · exact Or.inl
    · rintro (h | h)
      · exact h
      · subst h; assumption
  · simp [List.mem_append]

theorem foldl_addUnique_mem :
    ∀ (l acc : List String) (j : String), (j ∈ acc ∨ j ∈ l) →
      j ∈ l.foldl addUnique acc := by
  intro l
  induction l with
  | nil =>
    intro acc j h
    rcases h with h | h
    · exact h
    · exact absurd h (List.not_mem_nil j)
  | cons a t ih =>
    intro acc j h
    show j ∈ t.foldl addUnique (addUnique acc a)
    rcases h with h | h
    · exact ih _ j (Or.inl ((mem_addUnique acc a j).mpr (Or.inl h)))
    · rcases List.mem_cons.mp h with h | h
      · exact ih _ j (Or.inl ((mem_addUnique acc a j).mpr (Or.inr h)))
      · exact ih _ j (Or.inr h)

/-- C7: for a state holding unresolved jars, _collect_missing_jars adds
them to build_targets exactly when referenced_by_jar is true: with true
the build_targets result is non-empty and holds every missing jar, with
false the state is untouched, build_targets stays as it was and
missing_jars is retained. -/
theorem collect_missing_jars_policy (st : ModuleData)
    (h : st.missing_jars ≠ []) :
    ((_collect_missing_jars true st).build_targets ≠ [] ∧
      ∀ j ∈ st.missing_jars, j ∈ (_collect_missing_jars true st).build_targets) ∧
    ((_collect_missing_jars false st).build_targets = st.build_targets ∧
      (_collect_missing_jars false st).missing_jars = st.missing_jars) := by
  have hmem : ∀ j ∈ st.missing_jars,
      j ∈ (_collect_missing_jars true st).build_targets := by
    intro j hj
    show j ∈ st.missing_jars.foldl addUnique st.build_targets
    exact foldl_addUnique_mem _ _ _ (Or.inr hj)
  refine ⟨⟨?_, hmem⟩, rfl, rfl⟩
  obtain ⟨j, t, hjt⟩ : ∃ j t, st.missing_jars = j :: t := by
    cases hmj : st.missing_jars with
    | nil => exact absurd hmj h
    | cons j t => exact ⟨j, t, rfl⟩
  intro hcon
  have hm := hmem j (by rw [hjt]; exact List.mem_cons_self j t)
  rw [hcon] at hm
  exact absurd hm (List.not_mem_nil j)

/-- Witness for C7 at the fixture of test_collect_missing_jars. -/
theorem collect_missing_jars_policy_witness :
    "a" ∈ (_collect_missing_jars true stW7).build_targets ∧
    (_collect_missing_jars false stW7).build_targets = stW7.build_targets :=
  ⟨((collect_missing_jars_policy stW7 (by decide)).1).2 "a" (by decide),
   ((collect_missing_jars_policy stW7 (by decide)).2).1⟩

/-- C9 counterexample: the jar-as-source attachment step produces no
entry for the input R.java, which does not end in .srcjar: the state is
unchanged, so the pseudo source entry is not recorded for every input
path. -/
theorem collect_srcjar_path_counterexample :
    (_collect_srcjar_path initData "R.java").srcjar_paths = [] ∧
    _collect_srcjar_path initData "R.java" = initData := by decide

theorem srcjar_fold_mono :
    ∀ (l : List String) (st : ModuleData) (x : String),
      x ∈ st.srcjar_paths → x ∈ (l.foldl _collect_srcjar_path st).srcjar_paths := by
  intro l
  induction l with
  | nil => intro st x h; exact h
  | cons a t ih =>
    intro st x h
    show x ∈ (t.foldl _collect_srcjar_path (_collect_srcjar_path st a)).srcjar_paths
    refine ih _ x ?_
    unfold _collect_srcjar_path
    split
    · exact (mem_addUnique _ _ _).mpr (Or.inl h)
    · exact h

theorem collect_srcjar_path_adds (s : ModuleData) (x : String)
    (hx : strEndsWith x ".srcjar" = true) :
    (x ++ "!/") ∈ (_collect_srcjar_path s x).srcjar_paths := by
  unfold _collect_srcjar_path
  split
  · exact (mem_addUnique _ _ _).mpr (Or.inr rfl)
  · rename_i hc; exact absurd hx hc

theorem srcjar_fold_mem :
    ∀ (l : List String) (st : ModuleData) (sj : String), sj ∈ l →
      strEndsWith sj ".srcjar" = true →
      (sj ++ "!/") ∈ (l.foldl _collect_srcjar_path st).srcjar_paths := by
  intro l
  induction l with
  | nil => intro st sj h _; exact absurd h (List.not_mem_nil sj)
  | cons a t ih =>
    intro st sj h hends
    show (sj ++ "!/") ∈ (t.foldl _collect_srcjar_path
      (_collect_srcjar_path st a)).srcjar_paths
    rcases List.mem_cons.mp h with rfl | h
    · exact srcjar_fold_mono t _ _ (collect_srcjar_path_adds st sj hends)
    · exact ih _ sj h hends

/-- C9 amended: the pseudo source entry "<path>!/" is recorded exactly
for paths ending in ".srcjar": such a path joins srcjar_paths both via
_collect_srcjar_path and via _collect_all_srcjar_paths, while any other
input leaves the state unchanged. -/
theorem collect_srcjar_path_only_srcjar (st : ModuleData) (p : String)
    (m : BuildModule) :
    (strEndsWith p ".srcjar" = true →
      (p ++ "!/") ∈ (_collect_srcjar_path st p).srcjar_paths) ∧
    (strEndsWith p ".srcjar" = false → _collect_srcjar_path st p = st) ∧
    (∀ sj ∈ m.srcjars, strEndsWith sj ".srcjar" = true →
      (sj ++ "!/") ∈ (_collect_all_srcjar_paths m st).srcjar_paths) := by
  refine ⟨collect_srcjar_path_adds st p, ?_, ?_⟩
  · intro h
    unfold _collect_srcjar_path
    split
    · rename_i hc; rw [h] at hc; exact Bool.noConfusion hc
    · rfl
  · intro sj hsj hends
    exact srcjar_fold_mem m.srcjars st sj hsj hends

/-- Witness for the amended C9 at a concrete srcjar input. -/
theorem collect_srcjar_path_only_srcjar_witness :
    ("a/b/aapt2.srcjar" ++ "!/") ∈
      (_collect_srcjar_path initData "a/b/aapt2.srcjar").srcjar_paths ∧
    _collect_srcjar_path initData "R.java" = initData :=
  ⟨(collect_srcjar_path_only_srcjar initData "a/b/aapt2.srcjar" modC2).1
      (by decide),
   (collect_srcjar_path_only_srcjar initData "R.java" modC2).2.1 (by decide)⟩

/-- C10: classification of resolved source roots is not a total split
into source and test directories: the ignore-listed directory
libcore/ojluni/src/lambda/java is silently dropped by
_add_to_source_or_test_dirs, joining neither src_dirs nor test_dirs,
while the ordinary directory a joins src_dirs. -/
theorem add_to_source_or_test_dirs_ignore_list :
    _add_to_source_or_test_dirs initData "libcore/ojluni/src/lambda/java" =
      initData ∧
    (_add_to_source_or_test_dirs initData
      "libcore/ojluni/src/lambda/java").src_dirs = [] ∧
    (_add_to_source_or_test_dirs initData
      "libcore/ojluni/src/lambda/java").test_dirs = [] ∧
    (_add_to_source_or_test_dirs initData "a").src_dirs = ["a"] ∧
    (_add_to_source_or_test_dirs initData "a").test_dirs = [] := by decide

theorem append_jar_file_frame (fs : FileSys) (st : ModuleData) (j : String) :
    (_append_jar_file fs st j).src_dirs = st.src_dirs ∧
    (_append_jar_file fs st j).test_dirs = st.test_dirs ∧
    (_append_jar_file fs st j).missing_jars = st.missing_jars ∧
    (_append_jar_file fs st j).r_java_paths = st.r_java_paths ∧
    (_append_jar_file fs st j).srcjar_paths = st.srcjar_paths ∧
    (_append_jar_file fs st j).build_targets = st.build_targets := by
  unfold _append_jar_file
  split <;> exact ⟨rfl, rfl, rfl, rfl, rfl, rfl⟩

theorem mem_append_jar_file (fs : FileSys) (st : ModuleData) (j p : String) :
    j ∈ (_append_jar_file fs st p).jar_files ↔
      j ∈ st.jar_files ∨
        (j = p ∧ strEndsWith p ".jar" = true ∧ fs.pathExists p = true) := by
  unfold _append_jar_file
  split
  · rename_i hc
    rw [Bool.and_eq_true] at hc
    show j ∈ addUnique st.jar_files p ↔ _
    rw [mem_addUnique]
    constructor
    · rintro (h | h)
      · exact Or.inl h
      · exact Or.inr ⟨h, hc.1, hc.2⟩
    · rintro (h | ⟨h, _, _⟩)
      · exact Or.inl h
      · exact Or.inr h
  · rename_i hc
    rw [Bool.and_eq_true] at hc
    constructor
    · exact Or.inl
    · rintro (h | ⟨rfl, h1, h2⟩)
      · exact h
      · exact absurd ⟨h1, h2⟩ hc

theorem mem_set_jars_fold (fs : FileSys) (r : String) :
    ∀ (l : List String) (st : ModuleData) (j : String),
      j ∈ (l.foldl (jarNameStep fs r) st).jar_files ↔
        j ∈ st.jar_files ∨ ∃ n, n ∈ l ∧ j = pathJoin r n ∧
          strEndsWith (pathJoin r n) ".jar" = true ∧
          fs.pathExists (pathJoin r n) = true := by
  intro l
  induction l with
  | nil =>
    intro st j
    constructor
    · exact Or.inl
    · rintro (h | ⟨n, hn, _⟩)
      · exact h
      · exact absurd hn (List.not_mem_nil n)
  | cons a t ih =>
    intro st j
    show j ∈ (t.foldl (jarNameStep fs r) (jarNameStep fs r st a)).jar_files ↔ _
    rw [ih]
    rw [show jarNameStep fs r st a = _append_jar_file fs st (pathJoin r a)
      from rfl]
    rw [mem_append_jar_file]
    constructor
    · rintro ((h | ⟨rfl, h1, h2⟩) | ⟨n, hn, rfl, h1, h2⟩)
      · exact Or.inl h
      · exact Or.inr ⟨a, List.mem_cons_self a t, rfl, h1, h2⟩
      · exact Or.inr ⟨n, List.mem_cons_of_mem a hn, rfl, h1, h2⟩
    · rintro (h | ⟨n, hn, rfl, h1, h2⟩)
      · exact Or.inl (Or.inl h)
      · rcases List.mem_cons.mp hn with rfl | hn
        · exact Or.inl (Or.inr ⟨rfl, h1, h2⟩)
        · exact Or.inr ⟨n, hn, rfl, h1, h2⟩

/-- C5 counterexample: for a module declaring test.jar (existing on
disk) and missing.jar (absent), _set_jars_jarfile resolves the first
into jar_files but leaves missing_jars empty: the unresolvable declared
jar is not recorded there, matching test_set_jars_jarfile and refuting
the claimed bookkeeping. -/
theorem set_jars_jarfile_counterexample :
    (_set_jars_jarfile fsC5 modC5 initData).jar_files =
      ["packages/apps/test/test.jar"] ∧
    (_set_jars_jarfile fsC5 modC5 initData).missing_jars = [] ∧
    "packages/apps/test/missing.jar" ∉
      (_set_jars_jarfile fsC5 modC5 initData).missing_jars := by decide

/-- C5 amended: jar resolution joins every declared name with the module
root path; jar_files ends up holding exactly the declared entries that
name a .jar existing on disk, and missing_jars is left unchanged — the
unresolvable declared names are skipped silently rather than recorded. -/
theorem set_jars_jarfile_resolves (fs : FileSys) (m : BuildModule) :
    (∀ j, j ∈ (_set_jars_jarfile fs m initData).jar_files ↔
      ∃ n, n ∈ m.jars ∧ j = pathJoin m.rootPath n ∧
        strEndsWith (pathJoin m.rootPath n) ".jar" = true ∧
        fs.pathExists (pathJoin m.rootPath n) = true) ∧
    (∀ st : ModuleData,
      (_set_jars_jarfile fs m st).missing_jars = st.missing_jars) := by
  constructor
  · intro j
    unfold _set_jars_jarfile
    rw [mem_set_jars_fold]
    constructor
    · rintro (h | h)
      · exact absurd h (List.not_mem_nil j)
      · exact h
    · exact Or.inr
  · intro st
    unfold _set_jars_jarfile
    exact foldl_preserves (P := fun s => s.missing_jars = st.missing_jars)
      (fun s a h =>
        ((append_jar_file_frame fs s (pathJoin m.rootPath a)).2.2.1).trans h)
      m.jars st rfl

theorem rStep_mono (fs : FileSys) (st : ModuleData) (a x : String) :
    (x ∈ st.r_java_paths → x ∈ (rStep fs st a).r_java_paths) ∧
    (x ∈ st.build_targets → x ∈ (rStep fs st a).build_targets) := by
  unfold rStep
  split
  · split
    · exact ⟨fun h => (mem_addUnique _ _ _).mpr (Or.inl h), id⟩
    · exact ⟨id, fun h => (mem_addUnique _ _ _).mpr (Or.inl h)⟩
  · exact ⟨id, id⟩

theorem r_fold_mono (fs : FileSys) :
    ∀ (l : List String) (st : ModuleData) (x : String),
      (x ∈ st.r_java_paths → x ∈ (l.foldl (rStep fs) st).r_java_paths) ∧
      (x ∈ st.build_targets → x ∈ (l.foldl (rStep fs) st).build_targets) := by
  intro l
  induction l with
  | nil => intro st x; exact ⟨id, id⟩
  | cons a t ih =>
    intro st x
    exact ⟨fun h => (ih (rStep fs st a) x).1 ((rStep_mono fs st a x).1 h),
           fun h => (ih (rStep fs st a) x).2 ((rStep_mono fs st a x).2 h)⟩

theorem rStep_adds (fs : FileSys) (st : ModuleData) (sj d : String)
    (hr : _get_r_dir sj = some d) :
    (fs.pathExists d = true → d ∈ (rStep fs st sj).r_java_paths) ∧
    (fs.pathExists d = false → sj ∈ (rStep fs st sj).build_targets) := by
  unfold rStep
  rw [hr]
  dsimp only
  split
  · rename_i hc
    constructor
    · intro _
      exact (mem_addUnique _ _ _).mpr (Or.inr rfl)
    · intro hf
      rw [hf] at hc
      exact Bool.noConfusion hc
  · rename_i hc
    constructor
    · intro ht
      exact absurd ht hc
    · intro _
      exact (mem_addUnique _ _ _).mpr (Or.inr rfl)

theorem r_fold_mem (fs : FileSys) :
    ∀ (l : List String) (st : ModuleData) (sj d : String), sj ∈ l →
      _get_r_dir sj = some d →
      (fs.pathExists d = true → d ∈ (l.foldl (rStep fs) st).r_java_paths) ∧
      (fs.pathExists d = false → sj ∈ (l.foldl (rStep fs) st).build_targets) := by
  intro l
  induction l with
  | nil => intro st sj d h _; exact absurd h (List.not_mem_nil sj)
  | cons a t ih =>
    intro st sj d h hr
    rcases List.mem_cons.mp h with rfl | h
    · have hs := rStep_adds fs st sj d hr
      exact ⟨fun hex => (r_fold_mono fs t _ d).1 (hs.1 hex),
             fun hne => (r_fold_mono fs t _ sj).2 (hs.2 hne)⟩
    · exact ih (rStep fs st a) sj d h hr

/-- C6 counterexample: an APPS module of metadata depth 1, resolved at
requested depth 0 — outside the claimed depth scope, since its depth
exceeds the requested depth — still populates r_java_paths with the
derived directory of its srcjar, mirroring the fixture of
test_collect_r_src_path lines 148-157: the collection is not gated on
the depth being within scope. -/
theorem collect_r_srcs_paths_depth_counterexample :
    ¬ (modC6d.module_depth ≤ 0) ∧
    "APPS" ∈ modC6d.classes ∧
    (_collect_r_srcs_paths fsC6e modC6d initData).r_java_paths =
      ["x/aapt2"] := by decide

/-- C6 amended: generated-resource collection produces entries only for
a module whose class tags contain APPS — the depth plays no role
(otherwise r_java_paths and build_targets stay empty); when the gate
holds, each srcjar whose derived resource directory exists contributes
that directory to r_java_paths, and each srcjar whose derived directory
is absent is itself recorded in build_targets instead of being
dropped. -/
theorem collect_r_srcs_paths_policy (fs : FileSys) (m : BuildModule) :
    (¬ ("APPS" ∈ m.classes) →
      (_collect_r_srcs_paths fs m initData).r_java_paths = [] ∧
      (_collect_r_srcs_paths fs m initData).build_targets = []) ∧
    ("APPS" ∈ m.classes →
      ∀ sj ∈ m.srcjars, ∀ d, _get_r_dir sj = some d →
        (fs.pathExists d = true →
          d ∈ (_collect_r_srcs_paths fs m initData).r_java_paths) ∧
        (fs.pathExists d = false →
          sj ∈ (_collect_r_srcs_paths fs m initData).build_targets)) := by
  constructor
  · intro hgate
    unfold _collect_r_srcs_paths
    rw [if_neg hgate]
    exact ⟨rfl, rfl⟩
  · intro hgate sj hsj d hr
    unfold _collect_r_srcs_paths
    rw [if_pos hgate]
    exact r_fold_mem fs m.srcjars initData sj d hsj hr

/-- Witness for the amended C6: the APPS module modC6 on an empty
filesystem sends its srcjar into build_targets; without the APPS tag
nothing is collected. -/
theorem collect_r_srcs_paths_policy_witness :
    "x/aapt2.srcjar" ∈
      (_collect_r_srcs_paths fsC6 modC6 initData).build_targets ∧
    (_collect_r_srcs_paths fsC6 modC6n initData).r_java_paths = [] :=
  ⟨((collect_r_srcs_paths_policy fsC6 modC6).2 (by decide) "x/aapt2.srcjar"
      (by decide) "x/aapt2" (by decide)).2 (by decide),
   ((collect_r_srcs_paths_policy fsC6 modC6n).1 (by decide)).1⟩

theorem add_dirs_frame (st : ModuleData) (d : String) :
    (_add_to_source_or_test_dirs st d).jar_files = st.jar_files ∧
    (_add_to_source_or_test_dirs st d).missing_jars = st.missing_jars ∧
    (_add_to_source_or_test_dirs st d).r_java_paths = st.r_java_paths ∧
    (_add_to_source_or_test_dirs st d).srcjar_paths = st.srcjar_paths ∧
    (_add_to_source_or_test_dirs st d).build_targets = st.build_targets := by
  unfold _add_to_source_or_test_dirs
  split
  · exact ⟨rfl, rfl, rfl, rfl, rfl⟩
  · split <;> exact ⟨rfl, rfl, rfl, rfl, rfl⟩

theorem srcStep_frame (fs : FileSys) (st : ModuleData) (a : String) :
    (srcStep fs st a).jar_files = st.jar_files ∧
    (srcStep fs st a).missing_jars = st.missing_jars ∧
    (srcStep fs st a).r_java_paths = st.r_java_paths ∧
    (srcStep fs st a).srcjar_paths = st.srcjar_paths ∧
    (srcStep fs st a).build_targets = st.build_targets := by
  unfold srcStep
  split
  · split
    · exact add_dirs_frame st _
    · exact ⟨rfl, rfl, rfl, rfl, rfl⟩
  · exact ⟨rfl, rfl, rfl, rfl, rfl⟩

theorem collect_srcs_paths_frame (fs : FileSys) (m : BuildModule)
    (st : ModuleData) :
    (_collect_srcs_paths fs m st).jar_files = st.jar_files ∧
    (_collect_srcs_paths fs m st).missing_jars = st.missing_jars ∧
    (_collect_srcs_paths fs m st).r_java_paths = st.r_java_paths ∧
    (_collect_srcs_paths fs m st).srcjar_paths = st.srcjar_paths ∧
    (_collect_srcs_paths fs m st).build_targets = st.build_targets := by
  unfold _collect_srcs_paths
  exact foldl_preserves
    (P := fun s => s.jar_files = st.jar_files ∧
      s.missing_jars = st.missing_jars ∧
      s.r_java_paths = st.r_java_paths ∧
      s.srcjar_paths = st.srcjar_paths ∧
      s.build_targets = st.build_targets)
    (fun s a h => by
      obtain ⟨h1, h2, h3, h4, h5⟩ := h
      have hf := srcStep_frame fs s a
      exact ⟨hf.1.trans h1, hf.2.1.trans h2, hf.2.2.1.trans h3,
        hf.2.2.2.1.trans h4, hf.2.2.2.2.trans h5⟩)
    m.srcs st ⟨rfl, rfl, rfl, rfl, rfl⟩

theorem rStep_frame (fs : FileSys) (st : ModuleData) (a : String) :
    (rStep fs st a).src_dirs = st.src_dirs ∧
    (rStep fs st a).test_dirs = st.test_dirs ∧
    (rStep fs st a).jar_files = st.jar_files ∧
    (rStep fs st a).missing_jars = st.missing_jars ∧
    (rStep fs st a).srcjar_paths = st.srcjar_paths := by
  unfold rStep
  split
  · split <;> exact ⟨rfl, rfl, rfl, rfl, rfl⟩
  · exact ⟨rfl, rfl, rfl, rfl, rfl⟩

theorem collect_r_srcs_paths_frame (fs : FileSys) (m : BuildModule)
    (st : ModuleData) :
    (_collect_r_srcs_paths fs m st).src_dirs = st.src_dirs ∧
    (_collect_r_srcs_paths fs m st).test_dirs = st.test_dirs ∧
    (_collect_r_srcs_paths fs m st).jar_files = st.jar_files ∧
    (_collect_r_srcs_paths fs m st).missing_jars = st.missing_jars ∧
    (_collect_r_srcs_paths fs m st).srcjar_paths = st.srcjar_paths := by
  unfold _collect_r_srcs_paths
  split
  · exact foldl_preserves
      (P := fun s => s.src_dirs = st.src_dirs ∧
        s.test_dirs = st.test_dirs ∧
        s.jar_files = st.jar_files ∧
        s.missing_jars = st.missing_jars ∧
        s.srcjar_paths = st.srcjar_paths)
      (fun s a h => by
        obtain ⟨h1, h2, h3, h4, h5⟩ := h
        have hf := rStep_frame fs s a
        exact ⟨hf.1.trans h1, hf.2.1.trans h2, hf.2.2.1.trans h3,
          hf.2.2.2.1.trans h4, hf.2.2.2.2.trans h5⟩)
      m.srcjars st ⟨rfl, rfl, rfl, rfl, rfl⟩
  · exact ⟨rfl, rfl, rfl, rfl, rfl⟩

theorem append_jar_from_installed_frame (fs : FileSys) (m : BuildModule)
    (pfx : Option String) (st : ModuleData) :
    (_append_jar_from_installed fs m pfx st).src_dirs = st.src_dirs ∧
    (_append_jar_from_installed fs m pfx st).test_dirs = st.test_dirs ∧
    (_append_jar_from_installed fs m pfx st).missing_jars = st.missing_jars ∧
    (_append_jar_from_installed fs m pfx st).r_java_paths = st.r_java_paths ∧
    (_append_jar_from_installed fs m pfx st).srcjar_paths = st.srcjar_paths ∧
    (_append_jar_from_installed fs m pfx st).build_targets = st.build_targets := by
  unfold _append_jar_from_installed
  split
  · exact append_jar_file_frame fs st _
  · exact ⟨rfl, rfl, rfl, rfl, rfl, rfl⟩

/-- C2 counterexample: the depth-0 module modC2 resolved at requested
depth 0 takes the source branch of the depth policy, yet its jar_files
does not stay empty: carrying jarjar rules, it gets its installed jar
appended (the behaviour asserted by the in-tree test
test_locate_sources_path), so jar collection is not skipped for every
source-resolved module. -/
theorem locate_sources_path_jarjar_counterexample :
    modC2.module_depth ≤ 0 ∧
    (locate_sources_path fsC2 modC2 0 initData).jar_files =
      ["out/test.jar"] := by decide

/-- C2 amended: the depth policy of locate_sources_path: a module within
the requested depth and without jarjar rules is resolved as source — the
source and generated-resource collectors run and jar_files stays empty;
a module with jarjar rules still gets its installed jar appended even on
the source branch; a module beyond the requested depth is resolved as
jar only — only the installed-jar collector runs, and src_dirs,
test_dirs and r_java_paths stay empty regardless of the filesystem. -/
theorem locate_sources_path_depth_policy (fs : FileSys) (m : BuildModule)
    (q : Nat) :
    (m.module_depth ≤ q → m.jarjar_rules = [] →
      locate_sources_path fs m q initData =
        _collect_r_srcs_paths fs m (_collect_srcs_paths fs m initData) ∧
      (locate_sources_path fs m q initData).jar_files = []) ∧
    (q < m.module_depth →
      locate_sources_path fs m q initData =
        _append_jar_from_installed fs m none initData ∧
      (locate_sources_path fs m q initData).src_dirs = [] ∧
      (locate_sources_path fs m q initData).test_dirs = [] ∧
      (locate_sources_path fs m q initData).r_java_paths = []) := by
  constructor
  · intro hd hjj
    have hnot : ¬ (q < m.module_depth) := Nat.not_lt.mpr hd
    have hcheck : _check_jarjar_rules_exist m = false := by
      unfold _check_jarjar_rules_exist
      rw [hjj]
      rfl
    have heq : locate_sources_path fs m q initData =
        _collect_r_srcs_paths fs m (_collect_srcs_paths fs m initData) := by
      unfold locate_sources_path
      rw [if_neg hnot, hcheck]
      simp
    refine ⟨heq, ?_⟩
    rw [heq,
      (collect_r_srcs_paths_frame fs m (_collect_srcs_paths fs m initData)).2.2.1,
      (collect_srcs_paths_frame fs m initData).1]
    rfl
  · intro hd
    have heq : locate_sources_path fs m q initData =
        _append_jar_from_installed fs m none initData := by
      unfold locate_sources_path
      rw [if_pos hd]
    refine ⟨heq, ?_, ?_, ?_⟩ <;> rw [heq]
    · exact (append_jar_from_installed_frame fs m none initData).1
    · exact (append_jar_from_installed_frame fs m none initData).2.1
    · exact (append_jar_from_installed_frame fs m none initData).2.2.2.1

/-- Witness for the amended C2: a depth-2 module without jarjar rules at
requested depth 2 keeps jar_files empty; a depth-3 module at requested
depth 0 resolves as jar only and keeps src_dirs empty. -/
theorem locate_sources_path_depth_policy_witness :
    (locate_sources_path fsC2 modW2 2 initData).jar_files = [] ∧
    (locate_sources_path fsC2 modW2d 0 initData).src_dirs = [] :=
  ⟨((locate_sources_path_depth_policy fsC2 modW2 2).1 (by decide)
      (by decide)).2,
   ((locate_sources_path_depth_policy fsC2 modW2d 0).2 (by decide)).2.1⟩

theorem strEndsWith_append (q s : String) : strEndsWith (q ++ s) s = true := by
  unfold strEndsWith
  rw [String.data_append]
  exact List.isSuffixOf_iff_suffix.mpr (List.suffix_append q.data s.data)

theorem suffix_append_iff_of_le (q s t : List Char) (h : t.length ≤ s.length) :
    t <:+ (q ++ s) ↔ t <:+ s := by
  constructor
  · intro hs
    rw [List.suffix_iff_eq_drop] at hs ⊢
    rw [List.length_append] at hs
    rw [show q.length + s.length - t.length = q.length + (s.length - t.length)
      from by omega] at hs
    rw [List.drop_append] at hs
    exact hs
  · intro hs
    exact hs.trans (List.suffix_append q s)

theorem strEndsWith_append_of_le (q s t : String) (h : t.length ≤ s.length) :
    strEndsWith (q ++ s) t = strEndsWith s t := by
  unfold strEndsWith
  rw [String.data_append]
  have hiff := suffix_append_iff_of_le q.data s.data t.data h
  cases hb : List.isSuffixOf t.data s.data with
  | true =>
    exact List.isSuffixOf_iff_suffix.mpr
      (hiff.mpr (List.isSuffixOf_iff_suffix.mp hb))
  | false =>
    refine Bool.eq_false_iff.mpr (fun hcon => ?_)
    have h2 := List.isSuffixOf_iff_suffix.mpr
      (hiff.mp (List.isSuffixOf_iff_suffix.mp hcon))
    rw [hb] at h2
    exact Bool.noConfusion h2

theorem strDropRight_append_of_le (q s : String) (n : Nat) (h : n ≤ s.length) :
    strDropRight (q ++ s) n = q ++ strDropRight s n := by
  unfold strDropRight
  have h2 : n ≤ s.data.length := h
  rw [String.data_append, List.length_append]
  rw [show q.data.length + s.data.length - n =
    q.data.length + (s.data.length - n) from by omega]
  rw [List.take_append]
  rfl

/-- C4: the generated-resource derivation rules of _get_r_dir over every
srcjar path: a path ending in aapt2.srcjar maps to that path with the
.srcjar suffix stripped; a path ending in android/R.srcjar has the
trailing android/R.srcjar segment rewritten to aapt2/R; any other
suffix, including an R.srcjar not under an android directory such as
b/test/R.srcjar and the unknown pattern z/proto.srcjar, yields none. -/
theorem get_r_dir_rules (q : String) :
    _get_r_dir (q ++ "aapt2.srcjar") = some (q ++ "aapt2") ∧
    _get_r_dir (q ++ "android/R.srcjar") = some (q ++ "aapt2/R") ∧
    (strEndsWith q "aapt2.srcjar" = false →
      strEndsWith q "android/R.srcjar" = false → _get_r_dir q = none) ∧
    _get_r_dir "b/test/R.srcjar" = none ∧
    _get_r_dir "z/proto.srcjar" = none := by
  refine ⟨?_, ?_, ?_, by decide, by decide⟩
  · unfold _get_r_dir
    rw [strEndsWith_append q "aapt2.srcjar"]
    simp only [if_true]
    rw [strDropRight_append_of_le q "aapt2.srcjar" 7 (by decide)]
    rw [show strDropRight "aapt2.srcjar" 7 = "aapt2" from by decide]
  · unfold _get_r_dir
    rw [strEndsWith_append_of_le q "android/R.srcjar" "aapt2.srcjar" (by decide)]
    rw [show strEndsWith "android/R.srcjar" "aapt2.srcjar" = false
      from by decide]
    rw [strEndsWith_append q "android/R.srcjar"]
    simp only [Bool.false_eq_true, if_false, if_true]
    rw [strDropRight_append_of_le q "android/R.srcjar" 16 (by decide)]
    rw [show strDropRight "android/R.srcjar" 16 = "" from by decide]
    rw [String.append_empty]
  · intro h1 h2
    unfold _get_r_dir
    rw [h1, h2]
    simp

/-- Witness for C4 at the concrete inputs of the spec and of
test_get_r_dir. -/
theorem get_r_dir_rules_witness :
    _get_r_dir ("x/" ++ "aapt2.srcjar") = some ("x/" ++ "aapt2") ∧
    _get_r_dir ("y/" ++ "android/R.srcjar") = some ("y/" ++ "aapt2/R") ∧
    _get_r_dir "z/proto.srcjar" = none :=
  ⟨(get_r_dir_rules "x/").1, (get_r_dir_rules "y/").2.1,
   (get_r_dir_rules "z/proto.srcjar").2.2.1 (by decide) (by decide)⟩

/-- C8 counterexample: the dispatch of the per-module resolver runs the
jar-related closing steps _collect_classes_jars and _collect_missing_jars
even on the is_project branch, as the in-tree unit test asserts, so it is
not the case that no jar handling of any kind happens on this branch. -/
theorem eclipse_locate_steps_counterexample :
    "_collect_classes_jars" ∈ eclipseLocateSteps true ∧
    "_collect_missing_jars" ∈ eclipseLocateSteps true := by decide

/-- C8 amended: with is_project true the per-module resolver runs the
project-source collector and never the jar locator _locate_jar_path —
and the modelled project-source collector leaves jar_files and
missing_jars unchanged — but the closing steps _collect_classes_jars and
_collect_missing_jars run on both branches. -/
theorem eclipse_locate_project_dispatch :
    (eclipseLocateSteps true =
      ["_locate_project_source_path", "_collect_classes_jars",
        "_collect_missing_jars"] ∧
      "_locate_jar_path" ∉ eclipseLocateSteps true ∧
      eclipseLocateSteps false =
        ["_locate_jar_path", "_collect_classes_jars",
          "_collect_missing_jars"]) ∧
    ∀ (fs : FileSys) (m : BuildModule) (st : ModuleData),
      (_locate_project_source_path fs m st).jar_files = st.jar_files ∧
      (_locate_project_source_path fs m st).missing_jars = st.missing_jars := by
  refine ⟨by decide, ?_⟩
  intro fs m st
  unfold _locate_project_source_path
  constructor
  · rw [(collect_r_srcs_paths_frame fs m (_collect_srcs_paths fs m st)).2.2.1,
      (collect_srcs_paths_frame fs m st).1]
  · rw [(collect_r_srcs_paths_frame fs m (_collect_srcs_paths fs m st)).2.2.2.1,
      (collect_srcs_paths_frame fs m st).2.1]

/-!
The remaining theorems pin the model to every concrete expectation of
the in-tree tests test_parse_source_path and test_get_r_dir, keeping the
modelled definitions honest against the repository.
-/

theorem unittest_parse_case1 : _parse_source_path "a/b/c/d/e.java" "c.d" = "a/b" := by decide

theorem unittest_parse_case2 : _parse_source_path "a/b/c.d/e.java" "c.d" = "a/b" := by decide

theorem unittest_parse_case3 : _parse_source_path "a/b/c/d/e.java" "x.y" = "a/b/c/d" := by decide

theorem unittest_parse_case4 : _parse_source_path "a/b/c.d/e/c/d/f.java" "c.d" = "a/b/c.d/e" := by decide

theorem unittest_parse_case5 : _parse_source_path "a/b/c.d/e/c.d/e/f.java" "c.d.e" = "a/b/c.d/e" := by decide

theorem unittest_r_dir_case1 : _get_r_dir "a/aapt2.srcjar" = some "a/aapt2" := by decide

theorem unittest_r_dir_case2 : _get_r_dir "b/android/R.srcjar" = some "b/aapt2/R" := by decide

theorem unittest_r_dir_case3 : _get_r_dir "b/test/R.srcjar" = none := by decide

theorem unittest_r_dir_case4 : _get_r_dir "c/proto.srcjar" = none := by decide

end SourceLocator
